import Mathlib

/-!
Verification of the bank-statement parser generator (agent.py, agent_utils.py,
custom_parsers/icici_parser.py) against its specification.

The Python code is shallowly embedded: DataFrames become a column-major
`Df` structure (pandas stores frames column-wise), cell values become the
`Value` type (`null` models Python `None`, `nan` the float NaN missing
marker; numbers are modelled as rationals, which is exact for the finite
decimal literals the program manipulates), and the pdfplumber extraction
primitive is abstracted as input data (a document is a list of pages, each
page either yields a list of raw tables or raises, which the source
swallows into zero tables).
-/

namespace KarbonAgent

/-- A cell value of a table.  `null` models Python `None` (extraction cells
and whole-column `df[col] = None` fills); `nan` models the float NaN that
pandas inserts for cells missing during concat alignment and that
`read_csv` loads for blank fields — the two behave differently under `str`,
`!=` and `.equals`, so the model keeps them apart; `intv` models a Python
`int`, `num` a finite Python `float` (exactly, as a rational: the program
only ever produces finite floats by parsing finite decimal strings). -/
inductive Value where
  | null
  | nan
  | str (s : String)
  | intv (n : ℤ)
  | num (q : ℚ)
deriving DecidableEq

/-- `startsList pat l` : `pat` is an initial segment of `l`. -/
def startsList : List Char → List Char → Bool
  | [], _ => true
  | _ :: _, [] => false
  | a :: as, b :: bs => a == b && startsList as bs

/-- `subOccurs pat l` : `pat` occurs contiguously inside `l`. -/
def subOccurs : List Char → List Char → Bool
  | pat, [] => pat.isEmpty
  | pat, c :: rest => startsList pat (c :: rest) || subOccurs pat rest

/-- Python's substring test `pat in s`. -/
def occursIn (pat s : String) : Bool := subOccurs pat.data s.data

/-- Python `str.lower` (the program only lowercases ASCII column labels). -/
def pyLower (s : String) : String := ⟨s.data.map Char.toLower⟩

/-- ASCII whitespace removed by Python `str.strip()`. -/
def pySpace (c : Char) : Bool :=
  c == ' ' || c == '\t' || c == '\n' || c == '\r' || c == '\x0b' || c == '\x0c'

/-- Python `str.strip` with no argument: remove leading and trailing
whitespace.  (Python also strips some exotic Unicode spaces; the program
only ever strips ASCII text.) -/
def pyStrip (s : String) : String :=
  ⟨((s.data.dropWhile pySpace).reverse.dropWhile pySpace).reverse⟩

/-- Python `s.replace(",", "")`: delete every comma. -/
def delCommas (s : String) : String := ⟨s.data.filter (fun c => c != ',')⟩

/-- Numeric value of a list of decimal digit characters. -/
def digitsVal (ds : List Char) : ℕ := ds.foldl (fun a c => 10 * a + (c.toNat - 48)) 0

/-- Split an optional leading sign; `true` means negative. -/
def splitSign : List Char → Bool × List Char
  | '-' :: rest => (true, rest)
  | '+' :: rest => (false, rest)
  | l => (false, l)

/-- Parse an optional exponent suffix (`e`/`E`, optional sign, digits) into
the signed power of ten it denotes; an empty remainder means exponent 0;
anything else fails. -/
def parseExpSuffix : List Char → Option ℤ
  | [] => some 0
  | e :: rest =>
    if e == 'e' || e == 'E' then
      let s := splitSign rest
      let ds := s.2.takeWhile Char.isDigit
      let tail := s.2.dropWhile Char.isDigit
      if ds.isEmpty || !tail.isEmpty then none
      else some (if s.1 then -(digitsVal ds : ℤ) else (digitsVal ds : ℤ))
    else none

/-- Parse an unsigned float literal (`digits`, `digits.digits?`, `.digits`,
optional exponent) into a decimal mantissa and a signed power-of-ten scale:
the denoted value is `mant * 10 ^ e`. -/
def parseUnsignedFloat (l : List Char) : Option (ℕ × ℤ) :=
  let ip := l.takeWhile Char.isDigit
  let rest1 := l.dropWhile Char.isDigit
  match rest1 with
  | '.' :: rest2 =>
    let fp := rest2.takeWhile Char.isDigit
    let rest3 := rest2.dropWhile Char.isDigit
    if ip.isEmpty && fp.isEmpty then none
    else
      (parseExpSuffix rest3).map
        (fun e => (digitsVal (ip ++ fp), e - (fp.length : ℤ)))
  | _ =>
    if ip.isEmpty then none
    else (parseExpSuffix rest1).map (fun e => (digitsVal ip, e))

/-- The rational value `mant * 10 ^ e` (for `e < 0` a division by a power
of ten).  Written with a single `Rat.divInt` so that it evaluates. -/
def decValue (mant : ℤ) (e : ℤ) : ℚ :=
  Rat.divInt (mant * 10 ^ e.toNat) (10 ^ (-e).toNat)

/-- Model of Python `float(s)` on strings: accepts decimal and scientific
literals with optional sign and surrounding whitespace, rejects everything
else.  (Python additionally accepts `inf`/`nan` names and underscore digit
separators; the program never produces such strings, and no claim touches
them.) -/
def pyFloatOfString (s : String) : Option ℚ :=
  let sg := splitSign (pyStrip s).data
  match parseUnsignedFloat sg.2 with
  | some me => some (decValue (if sg.1 then -(me.1 : ℤ) else (me.1 : ℤ)) me.2)
  | none => none

/-- Embedding of `_normalize_number` (icici_parser.py lines 14-26, identical
text in the generated artifact): `None` stays null, `int`/`float` pass
through as a float, a string is stripped, `""` and `"-"` become null,
otherwise commas are removed and the string is parsed as a float, `None` on
failure. -/
def normalize_number : Value → Value
  | .null => .null
  | .nan => .nan
  | .intv n => .num (n : ℚ)
  | .num q => .num q
  | .str v =>
    let s := pyStrip v
    if s == "" || s == "-" then .null
    else
      match pyFloatOfString (delCommas s) with
      | some q => .num q
      | none => .null

/-- The keyword bucket table `key_map` (agent_utils.py lines 30-36 and
icici_parser.py lines 30-36).  The list order is the Python dict's insertion
order, which `for key, kws in key_map.items()` iterates in. -/
def key_map : List (String × List String) :=
  [("date", ["date", "txn date", "transaction date"]),
   ("description", ["description", "narration", "details"]),
   ("debit", ["debit", "withdrawal", "dr", "debit amt"]),
   ("credit", ["credit", "deposit", "cr", "credit amt"]),
   ("balance", ["balance", "closing balance", "available balance"])]

/-- The keyword pass of the column mapper (agent_utils.py lines 51-59,
icici_parser.py lines 47-54): walk the buckets in order; for the first
bucket one of whose keywords occurs in the normalized label, look for the
first schema column whose lowercased name contains the bucket's concept
name; if none exists the loop falls through to the next bucket. -/
def findBucket (expected_cols : List String) (fl : String) :
    List (String × List String) → Option String
  | [] => none
  | (key, kws) :: rest =>
    if kws.any (fun k => occursIn k fl) then
      match expected_cols.find? (fun e => occursIn key (pyLower e)) with
      | some e => some e
      | none => findBucket expected_cols fl rest
    else findBucket expected_cols fl rest

/-- Mapping decision for one raw label (the body of the `for f in found_cols`
loop, agent_utils.py lines 41-62): exact case/whitespace-insensitive match
against the schema first, then the keyword pass. -/
def matchLabel (expected_cols : List String) (f : String) : Option String :=
  let fl := pyStrip (pyLower f)
  match expected_cols.find? (fun e => pyStrip (pyLower e) == fl) with
  | some e => some e
  | none => findBucket expected_cols fl key_map

/-- Embedding of `guess_column_mapping` (agent_utils.py lines 25-64) and of
the generated `_guess_mapping` (icici_parser.py lines 29-55, the same
algorithm with the baked-in schema): an association list from raw label to
schema column, one entry per mappable label, in input order. -/
def guess_column_mapping (found_cols expected_cols : List String) :
    List (String × String) :=
  found_cols.filterMap (fun f => (matchLabel expected_cols f).map (fun e => (f, e)))

/-- Dict lookup in the mapping (first matching key, as in a Python dict,
whose keys here are the distinct raw labels). -/
def mappingLookup (m : List (String × String)) (c : String) : Option String :=
  (m.find? (fun p => p.1 == c)).map (fun p => p.2)

/-- The fixed schema baked into the committed icici artifact
(icici_parser.py line 11). -/
def EXPECTED_COLUMNS : List String :=
  ["Date", "Description", "Debit Amt", "Credit Amt", "Balance"]

/-! ### The DataFrame model

A pandas DataFrame is stored column-wise: a list of labelled columns plus
the length of the row index.  Column labels may repeat (pandas permits
duplicate labels, which the renaming step can create). -/

/-- One DataFrame column: a label and its cell values (top to bottom). -/
structure Col where
  name : String
  vals : List Value
deriving DecidableEq

/-- A DataFrame: labelled columns plus the row-index length (kept
separately because a frame can have rows but no columns). -/
structure Df where
  cols : List Col
  nrows : ℕ
deriving DecidableEq

/-- The column labels, in order (`df.columns`). -/
def dfNames (df : Df) : List String := df.cols.map Col.name

/-- First column with a given label (Python dict/label lookup). -/
def findCol (df : Df) (c : String) : Option Col :=
  df.cols.find? (fun col => col.name == c)

/-! ### The extraction input

pdfplumber is the black-box table-extraction primitive: a raw table is the
list of rows it returns, each cell a string or `None`; a page either yields
its list of raw tables or raises (`none` here), which the source swallows
into zero tables (icici_parser.py lines 62-65). -/

/-- A raw extracted table: rows of optional-string cells. -/
abbrev RawTable := List (List (Option String))

/-- A page: `none` when `page.extract_tables()` raises, otherwise the
extracted raw tables. -/
abbrev Page := Option (List RawTable)

/-- A document is its list of pages. -/
abbrev Document := List Page

/-- Tables contributed by a page (a raising page contributes zero). -/
def pageTables : Page → List RawTable
  | none => []
  | some ts => ts

/-- Python truthiness of a header cell, as tested by `any(header)`:
`None` and the empty string are falsy, every other string truthy. -/
def cellTruthy : Option String → Bool
  | none => false
  | some s => s != ""

/-- The retention filter (icici_parser.py lines 66-73): a table is kept
iff it has at least 2 rows and at least one truthy header cell. -/
def keepTable : RawTable → Bool
  | [] => false
  | hdr :: rest => decide (1 ≤ rest.length) && hdr.any cellTruthy

/-- Header label of a raw header cell:
`str(h).strip() if h is not None else ""` (icici_parser.py line 74). -/
def hdrCell : Option String → String
  | none => ""
  | some s => pyStrip s

/-- A raw data cell as a DataFrame value (`None` becomes null). -/
def cellVal : Option String → Value
  | none => .null
  | some s => .str s

/-- `pd.DataFrame(rows, columns=headers)` for one retained table: row 0
gives the labels, the remaining rows the data.  (pandas raises on ragged
rows; pdfplumber emits rectangular tables, and theorems about the pipeline
assume rectangular input where cell values matter.) -/
def tableDf : RawTable → Df
  | [] => ⟨[], 0⟩
  | hdr :: rest =>
    ⟨(List.range hdr.length).map (fun i =>
      ⟨hdrCell (hdr.getD i none), rest.map (fun r => cellVal (r.getD i none))⟩),
     rest.length⟩

/-- The retained tables of a document, as DataFrames, in page order then
in-page order (icici_parser.py lines 59-75). -/
def retainedDfs (doc : Document) : List Df :=
  (((doc.map pageTables).flatten).filter keepTable).map tableDf

/-- `pd.concat(tables, ignore_index=True, sort=False)` (icici_parser.py
line 80) for frames with unique column labels: the result's columns are
the union of the inputs' columns in order of first appearance; a frame
lacking a column contributes float-NaN cells; rows are stacked in input
order.  (With duplicate labels inside a frame pandas raises during
alignment; theorems that reach this step assume per-table unique labels.) -/
def concatDfs (dfs : List Df) : Df :=
  let names := dfs.foldl
    (fun acc df => acc ++ (dfNames df).filter (fun c => !acc.contains c)) []
  ⟨names.map (fun c =>
    ⟨c, (dfs.map (fun df =>
        match findCol df c with
        | some col => col.vals
        | none => List.replicate df.nrows Value.nan)).flatten⟩),
   (dfs.map Df.nrows).sum⟩

/-- Drop columns whose stripped label is empty (icici_parser.py line 83). -/
def dropBlankCols (df : Df) : Df :=
  ⟨df.cols.filter (fun col => pyStrip col.name != ""), df.nrows⟩

/-- `df.rename(columns=mapping)` with the guessed mapping (icici_parser.py
lines 86-87): every label is replaced by its image under the mapping dict
when present, and kept otherwise.  Distinct labels mapping to the same
schema name produce duplicate labels. -/
def renameCols (exp : List String) (df : Df) : Df :=
  let m := guess_column_mapping (dfNames df) exp
  ⟨df.cols.map (fun col => ⟨(mappingLookup m col.name).getD col.name, col.vals⟩),
   df.nrows⟩

/-- One iteration of the fill loop (icici_parser.py lines 90-92):
`if col not in df.columns: df[col] = None` appends an all-null column. -/
def ensureStep (acc : Df) (c : String) : Df :=
  if (dfNames acc).contains c then acc
  else ⟨acc.cols ++ [⟨c, List.replicate acc.nrows Value.null⟩], acc.nrows⟩

/-- The fill loop (icici_parser.py lines 90-92): for each schema column not
present, append an all-null column at the end. -/
def ensureCols (exp : List String) (df : Df) : Df :=
  exp.foldl ensureStep df

/-- `df = df[EXPECTED_COLUMNS]` (icici_parser.py line 93).  Label-based
selection in pandas returns, for each requested label, EVERY column bearing
that label (`Index.get_indexer_non_unique`), in request order then original
column order — duplicates created by renaming are all kept, none
overwritten. -/
def selectCols (exp : List String) (df : Df) : Df :=
  ⟨(exp.map (fun c => df.cols.filter (fun col => col.name == c))).flatten, df.nrows⟩

/-! ### Date normalization (icici_parser.py lines 96-106) -/

/-- Gregorian leap year. -/
def isLeap (y : ℕ) : Bool := (y % 4 == 0 && y % 100 != 0) || y % 400 == 0

/-- Days in a month of a given year. -/
def daysInMonth (y m : ℕ) : ℕ :=
  if m == 1 || m == 3 || m == 5 || m == 7 || m == 8 || m == 10 || m == 12 then 31
  else if m == 4 || m == 6 || m == 9 || m == 11 then 30
  else if isLeap y then 29 else 28

/-- `d` and `m` form a valid day/month for year `y`. -/
def validDM (y d m : ℕ) : Bool :=
  1 ≤ m && m ≤ 12 && 1 ≤ d && d ≤ daysInMonth y m

/-- Split a character list into the (possibly empty) maximal fields
between separator characters, like Python `re`-style splitting: `a/b/c`
gives three fields. -/
def splitFields (p : Char → Bool) : List Char → List (List Char)
  | [] => [[]]
  | c :: rest =>
    let r := splitFields p rest
    if p c then [] :: r
    else
      match r with
      | [] => [[c]]
      | h :: t => (c :: h) :: t

/-- Model of the external `dateutil.parser.parse(s, dayfirst=True)`,
restricted to all-numeric `day/month/year` strings with `/` or `-`
separators and a 4-digit year, the only shape the statement data uses:
with `dayfirst` the first field is preferred as the day; if that reading is
not a valid calendar date the two fields are swapped (dateutil's fallback);
two-digit years, month names, times and the many other dateutil formats are
outside the model, as is dateutil's filling of missing fields from the
current date.  Result: `(day, month, year)`. -/
def parseDateDayfirst (s : String) : Option (ℕ × ℕ × ℕ) :=
  match splitFields (fun c => c == '/' || c == '-') (pyStrip s).data with
  | [a, b, c] =>
    if !a.isEmpty && !b.isEmpty && !c.isEmpty
        && a.all Char.isDigit && b.all Char.isDigit && c.all Char.isDigit then
      let d := digitsVal a
      let m := digitsVal b
      let y := digitsVal c
      if y < 1000 then none
      else if validDM y d m then some (d, m, y)
      else if validDM y m d then some (m, d, y)
      else none
    else none
  | _ => none

/-- Zero-padded two-digit rendering (`strftime` `%d`/`%m`). -/
def pad2 (n : ℕ) : String := if n < 10 then "0" ++ toString n else toString n

/-- `d.strftime("%d-%m-%Y")` for the parsed `(day, month, year)` (years in
scope are four-digit, which `%Y` prints verbatim). -/
def formatDMY : ℕ × ℕ × ℕ → String
  | (d, m, y) => pad2 d ++ "-" ++ pad2 m ++ "-" ++ toString y

/-- Python `str(value)` for the values a date column can hold (extracted
cells are strings or `None`; `None` never reaches `str` because the source
tests `s is None` first; `str(float("nan"))` is the string `"nan"`;
numbers are rendered only for completeness). -/
def pyStr : Value → String
  | .null => "None"
  | .nan => "nan"
  | .str s => s
  | .intv n => toString n
  | .num q => toString q

/-- Embedding of the generated `_norm_date` (icici_parser.py lines 98-105):
null and blank-after-strip values become null; otherwise the value's string
form is date-parsed with `dayfirst=True` and reformatted `DD-MM-YYYY`; if
parsing raises, the original string form is returned unchanged. -/
def norm_date (v : Value) : Value :=
  match v with
  | .null => .null
  | _ =>
    let s := pyStr v
    if pyStrip s == "" then .null
    else
      match parseDateDayfirst s with
      | some dmy => .str (formatDMY dmy)
      | none => .str s

/-- Whether a label counts as a date column (`"date" in c.lower()`). -/
def isDateName (c : String) : Bool := occursIn "date" (pyLower c)

/-- The date-normalization step (icici_parser.py lines 96-106): if some
column label contains "date", the FIRST such label is selected and
`df[date_col] = df[date_col].map(_norm_date)` rewrites the column bearing
it.  (The source's label-based assignment touches exactly one column
whenever that label is unique, which holds in every situation the theorems
below visit; the embedding rewrites every column carrying the selected
label.) -/
def applyDateNorm (df : Df) : Df :=
  match (dfNames df).find? isDateName with
  | none => df
  | some dc =>
    ⟨df.cols.map (fun col =>
      if col.name == dc then ⟨col.name, col.vals.map norm_date⟩ else col),
     df.nrows⟩

/-- The numeric keyword list (icici_parser.py line 111). -/
def numericKeywords : List String := ["debit", "credit", "balance", "amount", "amt"]

/-- Whether a label counts as a numeric column. -/
def isNumericName (c : String) : Bool :=
  numericKeywords.any (fun k => occursIn k (pyLower c))

/-- The numeric-normalization loop (icici_parser.py lines 109-112): every
column whose label contains a numeric keyword is mapped through
`_normalize_number`.  (As with dates, the source's label-based assignment
coincides with this column-wise map when numeric labels are unique, which
holds wherever the theorems below use it.) -/
def applyNumNorm (df : Df) : Df :=
  ⟨df.cols.map (fun col =>
    if isNumericName col.name then ⟨col.name, col.vals.map normalize_number⟩
    else col),
   df.nrows⟩

/-- The empty frame `pd.DataFrame(columns=exp)`. -/
def emptyDf (exp : List String) : Df := ⟨exp.map (fun c => ⟨c, []⟩), 0⟩

/-- Embedding of the generated `parse` (icici_parser.py lines 58-114),
parameterized by the schema literal `exp` that `generate_parser_code` bakes
in (`EXPECTED_COLUMNS` for the committed icici artifact): collect retained
tables; if none, return the empty schema-shaped frame; otherwise
concatenate, drop blank-labelled columns, rename via the guessed mapping,
fill in missing schema columns, select the schema columns, then normalize
the first date column and all numeric columns. -/
def parseDoc (exp : List String) (doc : Document) : Df :=
  let tables := retainedDfs doc
  if tables.isEmpty then emptyDf exp
  else
    applyNumNorm (applyDateNorm (selectCols exp (ensureCols exp
      (renameCols exp (dropBlankCols (concatDfs tables))))))

/-! ### The attempt loop (agent.py lines 35-43)

`attempt_generate_and_validate` performs file I/O and dynamic import, so it
is abstracted as a function from the attempt number to its result pair
`(success, debug)`; the loop body and the console lines are embedded
verbatim. -/

/-- Outcome oracle for the attempts: argument is the 1-based attempt
number. -/
abbrev AttemptFn := ℕ → Bool × String

/-- The body of `for attempt in range(1, max_attempts + 1)` over the
remaining attempt numbers, returning the exit code and the printed lines. -/
def runAgentLoop (att : AttemptFn) : List ℕ → ℕ × List String
  | [] => (1, ["Max attempts reached without success."])
  | k :: rest =>
    let r := att k
    if r.1 then (0, ["Attempt " ++ toString k ++ ": PASS"])
    else
      let next := runAgentLoop att rest
      (next.1, ("Attempt " ++ toString k ++ ": FAIL -> " ++ r.2) :: next.2)

/-- Embedding of the attempt loop of `run_agent` (agent.py lines 35-43):
attempts are numbered `1 .. max_attempts`; the first success prints a PASS
line and returns exit code 0; each failure prints a FAIL line with the
debug blob; exhaustion prints the final line and returns exit code 1. -/
def run_agent (att : AttemptFn) (max_attempts : ℕ) : ℕ × List String :=
  runAgentLoop att (List.range' 1 max_attempts)

/-! ### The validator (agent_utils.py lines 218-235)

`parsed_df.equals(expected_df)` is structural equality of the `Df` model:
identical labels, row count and per-column cell values, where a null (NaN)
equals a null in the same location and cells of different dtype kinds are
unequal.  The difference mask `(parsed_df != expected_df)` instead follows
IEEE semantics: NaN compares unequal to everything, including NaN, while
int and float cells compare by numeric value.  `!=` raises unless the two
frames are identically labeled with equal row counts (the `except` swallows
this, leaving the coordinate `None`), and `.stack()` enumerates the mask in
row-major (row, then column) order. -/

/-- Elementwise `!=` of pandas on two cells: `None != None` is False
(Python object equality), NaN is unequal to everything including NaN
(IEEE), numeric cells compare by value across int/float, strings compare
as strings, mixed kinds are unequal. -/
def valueNe : Value → Value → Bool
  | .null, .null => false
  | .null, _ => true
  | _, .null => true
  | .nan, _ => true
  | _, .nan => true
  | .intv a, .intv b => a != b
  | .intv a, .num b => decide (¬((a : ℚ) = b))
  | .num a, .intv b => decide (¬(a = (b : ℚ)))
  | .num a, .num b => a != b
  | .str a, .str b => a != b
  | .str _, _ => true
  | _, .str _ => true

/-- Cell at column position `j`, row `i`. -/
def cellAt (df : Df) (j i : ℕ) : Value :=
  ((df.cols.getD j ⟨"", []⟩).vals).getD i .null

/-- All (row, column-position) coordinates in row-major order, the order
`.stack()` enumerates. -/
def rowMajorIdx (df : Df) : List (ℕ × ℕ) :=
  ((List.range df.nrows).map
    (fun i => (List.range df.cols.length).map (fun j => (i, j)))).flatten

/-- `mismatch[mismatch].index[0]`: the first coordinate of the `!=` mask
that is True, as a (row index, column label) pair; `none` when the mask has
no True entry (the `IndexError` is swallowed). -/
def firstNeIdx (a b : Df) : Option (ℕ × String) :=
  ((rowMajorIdx a).find?
      (fun p => valueNe (cellAt a p.2 p.1) (cellAt b p.2 p.1))).map
    (fun p => (p.1, (dfNames a).getD p.2 ""))

/-- The validation outcome: the boolean result of `.equals`, the two
shapes, and the optional first-mismatch coordinate of the debug blob. -/
structure ValidationOutcome where
  passed : Bool
  expected_shape : ℕ × ℕ
  parsed_shape : ℕ × ℕ
  first_mismatch : Option (ℕ × String)
deriving DecidableEq

/-- Embedding of the comparison and diagnostic part of
`attempt_generate_and_validate` (agent_utils.py lines 222-235): equality by
`.equals`; on failure the `!=` mask's first True coordinate — computed only
when the frames are identically labeled with equal row counts, since `!=`
raises otherwise and the `except Exception: pass` leaves the coordinate
`None`. -/
def validateFrames (parsed expected : Df) : ValidationOutcome :=
  let eq := parsed == expected
  let fm :=
    if eq then none
    else if dfNames parsed == dfNames expected
        && parsed.nrows == expected.nrows then
      firstNeIdx parsed expected
    else none
  ⟨eq, (expected.nrows, expected.cols.length),
      (parsed.nrows, parsed.cols.length), fm⟩

/-! ### The routine builder (agent_utils.py lines 67-190)

`generate_parser_code` renders a fixed source template with exactly one
interpolation: `json.dumps(expected_cols)`.  The `bank` argument is
accepted and never used.  The template is reproduced byte for byte (brace
characters written with escapes). -/

/-- Lowercase hexadecimal digit. -/
def hexDigit (n : ℕ) : Char := "0123456789abcdef".data.getD n '0'

/-- A `\uXXXX` escape for a UTF-16 code unit. -/
def uEscape (n : ℕ) : String :=
  ⟨['\\', 'u', hexDigit (n / 4096 % 16), hexDigit (n / 256 % 16),
    hexDigit (n / 16 % 16), hexDigit (n % 16)]⟩

/-- `json.dumps` escaping of one character (default `ensure_ascii=True`):
quote, backslash and the short control escapes, `\uXXXX` for other control
and all non-ASCII characters (astral ones as surrogate pairs). -/
def jsonEscapeChar (c : Char) : String :=
  if c == '"' then "\\\""
  else if c == '\\' then "\\\\"
  else if c == '\n' then "\\n"
  else if c == '\t' then "\\t"
  else if c == '\r' then "\\r"
  else if c == '\x08' then "\\b"
  else if c == '\x0c' then "\\f"
  else if c.toNat < 32 || c.toNat ≥ 127 then
    if c.toNat ≥ 65536 then
      uEscape (55296 + (c.toNat - 65536) / 1024)
        ++ uEscape (56320 + (c.toNat - 65536) % 1024)
    else uEscape c.toNat
  else ⟨[c]⟩

/-- `json.dumps` of a string. -/
def jsonStr (s : String) : String :=
  "\"" ++ String.join (s.data.map jsonEscapeChar) ++ "\""

/-- `json.dumps` of a list of strings (the schema literal). -/
def jsonDumps (l : List String) : String :=
  "[" ++ String.intercalate ", " (l.map jsonStr) ++ "]"

/-- The template text before the schema literal (agent_utils.py lines
75-85). -/
def tmplPre : String :=
  "from __future__ import annotations\n\nfrom pathlib import Path\nfrom typing import List\n\nimport pdfplumber\nimport pandas as pd\nfrom dateutil import parser as date_parser\n\n\nEXPECTED_COLUMNS: List[str] = "

/-- The template text after the schema literal (agent_utils.py lines
85-189): `_normalize_number`, `_guess_mapping` and `parse` exactly as in
the committed icici artifact. -/
def tmplPost : String :=
  "\n\n\ndef _normalize_number(value):\n    if value is None:\n        return None\n    if isinstance(value, (int, float)):\n        return float(value)\n    s = str(value).strip()\n    if s in (\"\", \"-\"):\n        return None\n    s = s.replace(\",\", \"\")\n    try:\n        return float(s)\n    except Exception:\n        return None\n\n\ndef _guess_mapping(cols):\n    key_map = \x7b\n        \"date\": [\"date\", \"txn date\", \"transaction date\"],\n        \"description\": [\"description\", \"narration\", \"details\"],\n        \"debit\": [\"debit\", \"withdrawal\", \"dr\", \"debit amt\"],\n        \"credit\": [\"credit\", \"deposit\", \"cr\", \"credit amt\"],\n        \"balance\": [\"balance\", \"closing balance\", \"available balance\"],\n    \x7d\n    mapping = \x7b\x7d\n    for c in cols:\n        cl = c.lower().strip()\n        # exact\n        for exp in EXPECTED_COLUMNS:\n            if exp.lower().strip() == cl:\n                mapping[c] = exp\n                break\n        if c in mapping:\n            continue\n        for key, kws in key_map.items():\n            if any(k in cl for k in kws):\n                for exp in EXPECTED_COLUMNS:\n                    if key in exp.lower():\n                        mapping[c] = exp\n                        break\n            if c in mapping:\n                break\n    return mapping\n\n\ndef parse(pdf_path: str) -> pd.DataFrame:\n    tables = []\n    with pdfplumber.open(pdf_path) as pdf:\n        for page in pdf.pages:\n            try:\n                tbls = page.extract_tables()\n            except Exception:\n                tbls = []\n            for t in tbls:\n                if not t or len(t) < 2:\n                    continue\n                header = t[0]\n                rows = t[1:]\n                if not any(header):\n                    # skip tables without headers\n                    continue\n                df = pd.DataFrame(rows, columns=[str(h).strip() if h is not None else \"\" for h in header])\n                tables.append(df)\n\n    if not tables:\n        return pd.DataFrame(columns=EXPECTED_COLUMNS)\n\n    df = pd.concat(tables, ignore_index=True, sort=False)\n\n    # drop empty columns\n    df = df[[c for c in df.columns if c is not None and str(c).strip() != \"\"]]\n\n    # rename to expected via heuristic\n    mapping = _guess_mapping(list(df.columns))\n    df = df.rename(columns=mapping)\n\n    # keep only expected columns\n    for col in EXPECTED_COLUMNS:\n        if col not in df.columns:\n            df[col] = None\n    df = df[EXPECTED_COLUMNS]\n\n    # type normalization\n    if any(\"date\" in c.lower() for c in df.columns):\n        date_col = [c for c in df.columns if \"date\" in c.lower()][0]\n        def _norm_date(s):\n            if s is None or str(s).strip() == \"\":\n                return None\n            try:\n                d = date_parser.parse(str(s), dayfirst=True)\n                return d.strftime(\"%d-%m-%Y\")\n            except Exception:\n                return str(s)\n        df[date_col] = df[date_col].map(_norm_date)\n\n    # numeric columns\n    for c in df.columns:\n        cl = c.lower()\n        if any(k in cl for k in [\"debit\", \"credit\", \"balance\", \"amount\", \"amt\"]):\n            df[c] = df[c].map(_normalize_number)\n\n    return df\n"

/-- Embedding of `generate_parser_code` (agent_utils.py lines 67-190): the
fixed template with `json.dumps(expected_cols)` spliced in as the value of
the `EXPECTED_COLUMNS` literal.  The `bank` parameter is accepted and,
exactly as in the source, never used. -/
def generate_parser_code (bank : String) (expected_cols : List String) : String :=
  tmplPre ++ jsonDumps expected_cols ++ tmplPost

/-! ### Spec-side definitions

These follow the specification's words rather than the source, for
refinement comparisons with the implementation. -/

/-- Follows the spec's words: two cell values "actually differ" when they
are not the same value, where a null equals a null (the spec's null covers
both `None` and NaN missing values) and numeric values compare numerically
whatever their int/float kind. -/
def specEqCell : Value → Value → Bool
  | .null, .null => true
  | .null, .nan => true
  | .nan, .null => true
  | .nan, .nan => true
  | .intv a, .intv b => a == b
  | .intv a, .num b => decide ((a : ℚ) = b)
  | .num a, .intv b => decide (a = (b : ℚ))
  | .num a, .num b => a == b
  | .str a, .str b => a == b
  | _, _ => false

/-- Follows the spec's words (claim C6): the first (row, column) coordinate
in row-major, then-column order at which the parsed value and the reference
value actually differ. -/
def specFirstDifference (a b : Df) : Option (ℕ × String) :=
  ((rowMajorIdx a).find?
      (fun p => !(specEqCell (cellAt a p.2 p.1) (cellAt b p.2 p.1)))).map
    (fun p => (p.1, (dfNames a).getD p.2 ""))

/-- pandas elementwise `==` on two cells: `None == None` is True (Python
object equality), NaN is equal to nothing including NaN, numeric cells
compare by value across int/float, strings compare as strings, mixed kinds
are unequal. -/
def pandasEqCell : Value → Value → Bool
  | .null, .null => true
  | .null, _ => false
  | _, .null => false
  | .nan, _ => false
  | _, .nan => false
  | .intv a, .intv b => a == b
  | .intv a, .num b => decide ((a : ℚ) = b)
  | .num a, .intv b => decide (a = (b : ℚ))
  | .num a, .num b => a == b
  | .str a, .str b => a == b
  | .str _, _ => false
  | _, .str _ => false

/-- Follows the spec's words (claim C7): the bucket that determines the
mapping is the FIRST bucket in iteration order with a keyword occurring in
the normalized label, and the chosen schema column is the first schema
column whose normalized name contains that bucket's concept name. -/
def specKeywordChoice (expected_cols : List String) (fl : String) : Option String :=
  (key_map.find? (fun p => p.2.any (fun k => occursIn k fl))).bind
    (fun p => expected_cols.find? (fun e => occursIn p.1 (pyLower e)))

/-- How many buckets have a keyword occurring in the normalized label. -/
def bucketsMatching (fl : String) : ℕ :=
  (key_map.filter (fun p => p.2.any (fun k => occursIn k fl))).length

/-- The keyword pass described operationally: walk the buckets in order and
take the first bucket that BOTH matches a keyword AND owns a schema column
containing its concept name; buckets that match but own no schema column
are skipped. -/
def firstBucketWithColumn (expected_cols : List String) (fl : String)
    (buckets : List (String × List String)) : Option String :=
  (buckets.filterMap (fun p =>
    if p.2.any (fun k => occursIn k fl) then
      expected_cols.find? (fun e => occursIn p.1 (pyLower e))
    else none)).head?

/-! ### Concrete instances used by witnesses and counterexamples -/

/-- Column at position `j` (padding column when out of range). -/
def colAt (df : Df) (j : ℕ) : Col := df.cols.getD j ⟨"", []⟩

/-- A one-table document whose two raw labels, "Narration" and "Details",
both map to the schema column "Description". -/
def docDupNames : Document :=
  [some [[[some "Narration", some "Details"], [some "a", some "b"]]]]

/-- The same duplicate-mapping shape with different cell values. -/
def docDupVals : Document :=
  [some [[[some "Narration", some "Details"], [some "x", some "y"]]]]

/-- A one-table document whose two raw labels map to two distinct schema
columns. -/
def docInjective : Document :=
  [some [[[some "Date", some "Narration"], [some "01/01/2024", some "pay"]]]]

/-- A document with no retainable table: a raising page, a page with no
tables, and a page whose only table has a single row. -/
def docNoTables : Document := [none, some [], some [[[some "h"]]]]

/-- A two-table document whose second table lacks the date-mapped column,
so concatenation fills that column with NaN for the second table's row. -/
def docNanDate : Document :=
  [some [[[some "Date", some "Narration"], [some "01/01/2024", some "pay"]],
         [[some "Narration"], [some "shop"]]]]

/-- A parsed frame whose first cell is `None` and whose second differs in
value from the reference. -/
def parsedNullOne : Df := ⟨[⟨"Balance", [.null, .num 1]⟩], 2⟩

/-- The matching reference frame: NaN (as `read_csv` loads a blank field)
above, a genuinely different number below. -/
def expectedNanTwo : Df := ⟨[⟨"Balance", [.nan, .num 2]⟩], 2⟩

/-- A small failing parsed/reference pair with matching labels. -/
def parsedSmall : Df := ⟨[⟨"Balance", [.num 3]⟩], 1⟩

/-- Its reference. -/
def expectedSmall : Df := ⟨[⟨"Balance", [.num 4]⟩], 1⟩

/-- A reference with a different column label, making `!=` raise. -/
def expectedOtherLabel : Df := ⟨[⟨"Credit Amt", [.num 4]⟩], 1⟩

/-- An attempt oracle that always fails. -/
def attAllFail : AttemptFn := fun _ => (false, "dbg")

/-- An attempt oracle that succeeds exactly at attempt 2. -/
def attSecond : AttemptFn := fun k => (k == 2, "d" ++ toString k)

/-- A frame with two date-named columns, to exhibit that only the first is
rewritten. -/
def dfTwoDates : Df :=
  ⟨[⟨"Date", [.str "31/01/2024", .str " ", .null, .str "hello"]⟩,
    ⟨"Value Date", [.str "02/03/2024", .str "x", .null, .str "y"]⟩], 4⟩

/-- A frame with one numeric-named and one non-numeric column. -/
def dfNumeric : Df :=
  ⟨[⟨"Debit Amt", [.str "1,234.50"]⟩, ⟨"Description", [.str "n1"]⟩], 1⟩

/-! ### Helper lemmas -/

theorem getD_map_cols (f : Col → Col) (l : List Col) (j : ℕ) (hj : j < l.length) :
    (l.map f).getD j ⟨"", []⟩ = f (l.getD j ⟨"", []⟩) := by
  induction l generalizing j with
  | nil => simp at hj
  | cons a t ih =>
    cases j with
    | zero => rfl
    | succ j => simpa using ih j (by simpa using hj)

theorem dfNames_emptyDf (exp : List String) : dfNames (emptyDf exp) = exp := by
  induction exp with
  | nil => rfl
  | cons a t ih =>
    simp only [dfNames, emptyDf, List.map_cons] at ih ⊢
    exact congrArg (List.cons a) ih

/-! ### Claim C9 -/

/-- Claim C9: artifact generation is idempotent and deterministic — the
source of `generate_parser_code` is a pure function of `(bank,
expected_cols)` with no attempt counter, randomness or mutable state, so
any number of successive regenerations with the same arguments produce
byte-identical artifact text. -/
theorem c9_generator_deterministic (bank : String) (cols : List String) (n : ℕ) :
    (List.range n).map (fun _ => generate_parser_code bank cols)
      = List.replicate n (generate_parser_code bank cols) := by
  simp

/-! ### Claim C10 -/

/-- Claim C10: the generated artifact does not depend on the target
identifier — for any two bank strings and the same schema,
`generate_parser_code` returns identical source text (the `bank` argument
never flows into the template). -/
theorem c10_bank_independent (b₁ b₂ : String) (cols : List String) :
    generate_parser_code b₁ cols = generate_parser_code b₂ cols := rfl

/-! ### Claim C3 -/

/-- Claim C3: every column whose name contains "debit", "credit",
"balance", "amount" or "amt" (case-insensitively) is normalized cell by
cell by `_normalize_number`: numeric values pass through as floats,
strings that trim to `""` or `"-"` become null, any other string has its
commas removed and is parsed as a float (null if unparseable); on the
spec's example row `["1,234.50", "-", "", None, 500]` this yields
`[1234.50, None, None, None, 500.0]`. -/
theorem c3_numeric_normalization :
    (∀ (df : Df) (j : ℕ), j < df.cols.length →
        isNumericName (colAt df j).name = true →
        colAt (applyNumNorm df) j
          = ⟨(colAt df j).name, (colAt df j).vals.map normalize_number⟩)
    ∧ (∀ n : ℤ, normalize_number (.intv n) = .num (n : ℚ))
    ∧ (∀ q : ℚ, normalize_number (.num q) = .num q)
    ∧ (∀ s : String, (pyStrip s == "" || pyStrip s == "-") = true →
        normalize_number (.str s) = .null)
    ∧ (∀ s : String, (pyStrip s == "" || pyStrip s == "-") = false →
        normalize_number (.str s)
          = match pyFloatOfString (delCommas (pyStrip s)) with
            | some q => .num q
            | none => .null)
    ∧ [Value.str "1,234.50", .str "-", .str "", .null, .intv 500].map normalize_number
        = [.num (1234.5 : ℚ), .null, .null, .null, .num (500 : ℚ)] := by
  refine ⟨?_, fun n => rfl, fun q => rfl, ?_, ?_, ?_⟩
  · intro df j hj hnum
    unfold colAt at hnum ⊢
    have hc : (applyNumNorm df).cols = df.cols.map (fun col =>
        if isNumericName col.name then
          ⟨col.name, col.vals.map normalize_number⟩
        else col) := rfl
    rw [hc, getD_map_cols _ _ _ hj, if_pos hnum]
  · intro s hs
    simp only [normalize_number, hs, if_true]
  · intro s hs
    simp only [normalize_number, hs, Bool.false_eq_true, if_false]
  · have h15 : (1234.5 : ℚ) = Rat.divInt 2469 2 := by
      rw [Rat.divInt_eq_div]; norm_num
    rw [h15]; decide

/-- Witness for C3 at concrete inputs. -/
theorem c3_witness :
    colAt (applyNumNorm dfNumeric) 0
        = ⟨"Debit Amt", [.num (Rat.divInt 2469 2)]⟩
      ∧ normalize_number (.str " - ") = .null
      ∧ normalize_number (.str "x2") = .null := by
  refine ⟨?_, ?_, ?_⟩
  · exact (c3_numeric_normalization.1 dfNumeric 0 (by decide) (by decide)).trans
      (by decide)
  · exact c3_numeric_normalization.2.2.2.1 " - " (by decide)
  · exact (c3_numeric_normalization.2.2.2.2.1 "x2" (by decide)).trans (by decide)

/-! ### Claim C5 -/

/-- Claim C5: for every document in which no raw table with at least two
rows and a truthy header cell survives the filter, `parse` returns — it
does not raise — the empty frame whose columns are exactly the baked-in
schema and which has zero rows. -/
theorem c5_empty_document (exp : List String) (doc : Document)
    (h : ((doc.map pageTables).flatten).filter keepTable = []) :
    parseDoc exp doc = emptyDf exp
      ∧ dfNames (parseDoc exp doc) = exp
      ∧ (parseDoc exp doc).nrows = 0 := by
  have ht : retainedDfs doc = [] := by
    unfold retainedDfs; rw [h]; rfl
  have hp : parseDoc exp doc = emptyDf exp := by
    unfold parseDoc; rw [ht]; rfl
  refine ⟨hp, ?_, ?_⟩ <;> rw [hp]
  · exact dfNames_emptyDf exp
  · rfl

/-- Witness for C5 at a document with a raising page, an empty page and a
one-row table. -/
theorem c5_witness :
    ((docNoTables.map pageTables).flatten).filter keepTable = []
      ∧ parseDoc EXPECTED_COLUMNS docNoTables = emptyDf EXPECTED_COLUMNS :=
  ⟨by decide, (c5_empty_document EXPECTED_COLUMNS docNoTables (by decide)).1⟩

/-! ### Claim C2 -/

theorem runAgentLoop_all_fail (att : AttemptFn) :
    ∀ (n a : ℕ), (∀ k, a ≤ k → k < a + n → (att k).1 = false) →
      runAgentLoop att (List.range' a n)
        = (1, (List.range' a n).map
                (fun k => "Attempt " ++ toString k ++ ": FAIL -> " ++ (att k).2)
              ++ ["Max attempts reached without success."]) := by
  intro n
  induction n with
  | zero => intro a _; rfl
  | succ m ih =>
    intro a h
    have ha : (att a).1 = false := h a le_rfl (by omega)
    show runAgentLoop att (a :: List.range' (a + 1) m) = _
    simp only [runAgentLoop, ha, Bool.false_eq_true, if_false,
      List.map_cons, List.cons_append]
    rw [ih (a + 1) (fun k h1 h2 => h k (by omega) (by omega))]
    have hr : List.range' a (m + 1) = a :: List.range' (a + 1) m := rfl
    rw [hr]; simp

theorem runAgentLoop_first_success (att : AttemptFn) :
    ∀ (n a k : ℕ), a ≤ k → k < a + n → (att k).1 = true →
      (∀ j, a ≤ j → j < k → (att j).1 = false) →
      runAgentLoop att (List.range' a n)
        = (0, (List.range' a (k - a)).map
                (fun j => "Attempt " ++ toString j ++ ": FAIL -> " ++ (att j).2)
              ++ ["Attempt " ++ toString k ++ ": PASS"]) := by
  intro n
  induction n with
  | zero => intro a k h1 h2 _ _; omega
  | succ m ih =>
    intro a k hak hk hsucc hbefore
    by_cases hka : k = a
    · subst hka
      show runAgentLoop att (k :: List.range' (k + 1) m) = _
      simp [runAgentLoop, hsucc, Nat.sub_self]
    · have haf : (att a).1 = false := hbefore a le_rfl (by omega)
      show runAgentLoop att (a :: List.range' (a + 1) m) = _
      simp only [runAgentLoop, haf, Bool.false_eq_true, if_false]
      rw [ih (a + 1) k (by omega) (by omega) hsucc
        (fun j hj1 hj2 => hbefore j (by omega) hj2)]
      have hr : List.range' a (k - a) = a :: List.range' (a + 1) (k - (a + 1)) := by
        have h1 : k - a = (k - (a + 1)) + 1 := by omega
        rw [h1]; rfl
      rw [hr]; simp

/-- Claim C2: `run_agent` returns exit code 0 as soon as some attempt's
validation passes (printing the failing attempts' FAIL lines and then the
PASS line); when every one of the `max_attempts` attempts fails it emits
exactly one FAIL line per attempt, then the exhaustion line, and returns
exit code 1. -/
theorem c2_attempt_loop (att : AttemptFn) (max_attempts : ℕ) :
    ((∀ k, 1 ≤ k → k ≤ max_attempts → (att k).1 = false) →
      run_agent att max_attempts
        = (1, (List.range' 1 max_attempts).map
                (fun k => "Attempt " ++ toString k ++ ": FAIL -> " ++ (att k).2)
              ++ ["Max attempts reached without success."]))
    ∧ (∀ k, 1 ≤ k → k ≤ max_attempts → (att k).1 = true →
        (∀ j, 1 ≤ j → j < k → (att j).1 = false) →
        run_agent att max_attempts
          = (0, (List.range' 1 (k - 1)).map
                  (fun j => "Attempt " ++ toString j ++ ": FAIL -> " ++ (att j).2)
                ++ ["Attempt " ++ toString k ++ ": PASS"])) := by
  constructor
  · intro h
    exact runAgentLoop_all_fail att max_attempts 1
      (fun k h1 h2 => h k h1 (by omega))
  · intro k h1 h2 hs hb
    exact runAgentLoop_first_success att max_attempts 1 k h1 (by omega) hs hb

/-- Witness for C2: three always-failing attempts produce three FAIL lines,
the exhaustion line and exit code 1; an oracle that passes at attempt 2
stops there with exit code 0. -/
theorem c2_witness :
    run_agent attAllFail 3
        = (1, ["Attempt 1: FAIL -> dbg", "Attempt 2: FAIL -> dbg",
               "Attempt 3: FAIL -> dbg", "Max attempts reached without success."])
      ∧ run_agent attSecond 3
        = (0, ["Attempt 1: FAIL -> d1", "Attempt 2: PASS"]) := by
  constructor
  · exact ((c2_attempt_loop attAllFail 3).1 (fun k _ _ => rfl)).trans (by decide)
  · refine ((c2_attempt_loop attSecond 3).2 2 (by omega) (by omega) (by decide)
      (fun j hj1 hj2 => ?_)).trans (by decide)
    have hj : j = 1 := by omega
    subst hj; rfl

/-! ### Claim C7 -/

theorem findBucket_eq_firstBucketWithColumn (exp : List String) (fl : String) :
    ∀ bs, findBucket exp fl bs = firstBucketWithColumn exp fl bs := by
  intro bs
  induction bs with
  | nil => rfl
  | cons p rest ih =>
    obtain ⟨key, kws⟩ := p
    unfold firstBucketWithColumn
    rw [List.filterMap_cons]
    simp only []
    by_cases hk : (kws.any fun k => occursIn k fl) = true
    · rw [if_pos hk]
      unfold findBucket
      rw [if_pos hk]
      cases hfind : exp.find? (fun e => occursIn key (pyLower e)) with
      | some e => rfl
      | none => exact ih
    · rw [if_neg hk]
      unfold findBucket
      rw [if_neg hk]
      exact ih

/-- Claim C7, amended: in the keyword pass the determining bucket is the
first matching bucket IN WHICH SOME SCHEMA COLUMN CONTAINS THE BUCKET'S
CONCEPT NAME — a bucket whose keywords match but whose concept name occurs
in no schema column is skipped and a later bucket decides; for the
determining bucket the chosen column is the first schema column whose
normalized name contains its concept name.  (The claim as stated — the
first keyword-matching bucket always determines the mapping — fails; see
the counterexample.) -/
theorem c7_keyword_bucket_order (exp : List String) (f : String)
    (hexact : exp.find?
        (fun e => pyStrip (pyLower e) == pyStrip (pyLower f)) = none) :
    matchLabel exp f = firstBucketWithColumn exp (pyStrip (pyLower f)) key_map := by
  simp only [matchLabel]
  rw [hexact]
  exact findBucket_eq_firstBucketWithColumn exp _ key_map

/-- Counterexample to C7 as stated: the raw label "date cr" has no exact
schema match against `["Credit Amt"]` and matches the keywords of exactly
two buckets (date, then credit); the first matching bucket is date, but no
schema column contains "date", so the spec-side choice is empty — yet the
code maps the label to "Credit Amt" through the LATER credit bucket. -/
theorem c7_counterexample :
    matchLabel ["Credit Amt"] "date cr" = some "Credit Amt"
      ∧ specKeywordChoice ["Credit Amt"] (pyStrip (pyLower "date cr")) = none
      ∧ bucketsMatching (pyStrip (pyLower "date cr")) = 2
      ∧ ["Credit Amt"].find?
          (fun e => pyStrip (pyLower e) == pyStrip (pyLower "date cr")) = none := by
  decide

/-- Witness for the amended C7 at the raw label "Withdrawal" against the
icici schema. -/
theorem c7_witness :
    EXPECTED_COLUMNS.find?
        (fun e => pyStrip (pyLower e) == pyStrip (pyLower "Withdrawal")) = none
      ∧ matchLabel EXPECTED_COLUMNS "Withdrawal"
          = firstBucketWithColumn EXPECTED_COLUMNS
              (pyStrip (pyLower "Withdrawal")) key_map
      ∧ matchLabel EXPECTED_COLUMNS "Withdrawal" = some "Debit Amt" :=
  ⟨by decide,
   c7_keyword_bucket_order EXPECTED_COLUMNS "Withdrawal" (by decide),
   by decide⟩

/-! ### Claim C6 -/

theorem valueNe_eq_not_pandasEqCell (a b : Value) :
    valueNe a b = !pandasEqCell a b := by
  cases a <;> cases b <;> simp [valueNe, pandasEqCell, bne, decide_not]

/-- Claim C6, amended: when validation fails and the two frames carry the
same column labels and row count, the reported first-mismatch coordinate is
the first (row, column) coordinate in row-major, then-column order at which
the elementwise pandas comparison finds the cells UNEQUAL — a notion under
which a NaN on either side (even on both) counts as a mismatch, so the
coordinate need not be one where the values actually differ; when the
labels or row counts disagree the elementwise comparison raises and the
coordinate is omitted while the result is still reported as failed.  (The
claim as stated — the coordinate is the first where the values actually
differ — fails; see the counterexample.) -/
theorem c6_first_mismatch (parsed expected : Df)
    (hfail : (validateFrames parsed expected).passed = false) :
    (dfNames parsed = dfNames expected ∧ parsed.nrows = expected.nrows →
      (validateFrames parsed expected).first_mismatch
        = ((rowMajorIdx parsed).find?
            (fun p => !(pandasEqCell (cellAt parsed p.2 p.1)
                (cellAt expected p.2 p.1)))).map
            (fun p => (p.1, (dfNames parsed).getD p.2 "")))
    ∧ (dfNames parsed ≠ dfNames expected ∨ parsed.nrows ≠ expected.nrows →
      (validateFrames parsed expected).first_mismatch = none) := by
  have heq : (parsed == expected) = false := by
    simpa [validateFrames] using hfail
  have hne : firstNeIdx parsed expected
      = ((rowMajorIdx parsed).find?
          (fun p => !(pandasEqCell (cellAt parsed p.2 p.1)
              (cellAt expected p.2 p.1)))).map
          (fun p => (p.1, (dfNames parsed).getD p.2 "")) := by
    unfold firstNeIdx
    have hp : (fun p : ℕ × ℕ =>
        valueNe (cellAt parsed p.2 p.1) (cellAt expected p.2 p.1))
        = (fun p : ℕ × ℕ =>
        !(pandasEqCell (cellAt parsed p.2 p.1) (cellAt expected p.2 p.1))) :=
      funext fun p => valueNe_eq_not_pandasEqCell _ _
    rw [hp]
  constructor
  · rintro ⟨h1, h2⟩
    simp only [validateFrames, heq, Bool.false_eq_true, if_false]
    rw [if_pos (by simp [h1, h2])]
    exact hne
  · intro h
    have hb : (dfNames parsed == dfNames expected
        && parsed.nrows == expected.nrows) = false := by
      rcases h with h | h <;> simp [h]
    simp only [validateFrames, heq, Bool.false_eq_true, if_false, hb]

/-- Counterexample to C6 as stated: the parsed frame holds `[None, 1.0]`,
the reference `[NaN, 2.0]` in the single column "Balance"; validation
fails, and the first coordinate where the values actually differ (nulls
equal) is row 1 — but the code reports row 0, where both sides are null
missing values that merely compare unequal under `!=`. -/
theorem c6_counterexample :
    (validateFrames parsedNullOne expectedNanTwo).passed = false
      ∧ (validateFrames parsedNullOne expectedNanTwo).first_mismatch
          = some (0, "Balance")
      ∧ specFirstDifference parsedNullOne expectedNanTwo = some (1, "Balance")
      ∧ specEqCell (cellAt parsedNullOne 0 0) (cellAt expectedNanTwo 0 0) = true := by
  decide

/-- Witness for the amended C6: a failing identically-labeled pair reports
the masked first coordinate; a pair with different labels reports failure
with the coordinate omitted. -/
theorem c6_witness :
    (validateFrames parsedSmall expectedSmall).first_mismatch = some (0, "Balance")
      ∧ (validateFrames parsedSmall expectedOtherLabel).first_mismatch = none := by
  constructor
  · exact ((c6_first_mismatch parsedSmall expectedSmall (by decide)).1
      ⟨by decide, by decide⟩).trans (by decide)
  · exact (c6_first_mismatch parsedSmall expectedOtherLabel (by decide)).2
      (Or.inl (by decide))

/-! ### Claim C4 -/

theorem getD_mem_of_lt {α : Type} (l : List α) (j : ℕ) (d : α)
    (hj : j < l.length) : l.getD j d ∈ l := by
  induction l generalizing j with
  | nil => simp at hj
  | cons a t ih =>
    cases j with
    | zero => exact List.mem_cons_self a t
    | succ j => exact List.mem_cons_of_mem a (ih j (by simpa using hj))

theorem getD_inj_of_nodup (l : List String) (hnd : l.Nodup) :
    ∀ (j i : ℕ), j < l.length → i < l.length →
      l.getD j "" = l.getD i "" → j = i := by
  induction l with
  | nil => intro j i hj _ _; simp at hj
  | cons a t ih =>
    intro j i hj hi h
    rcases List.nodup_cons.mp hnd with ⟨ha, ht⟩
    cases j with
    | zero =>
      cases i with
      | zero => rfl
      | succ i =>
        exfalso
        simp only [List.getD_cons_zero, List.getD_cons_succ] at h
        exact ha (h ▸ getD_mem_of_lt t i "" (by simpa using hi))
    | succ j =>
      cases i with
      | zero =>
        exfalso
        simp only [List.getD_cons_zero, List.getD_cons_succ] at h
        apply ha
        rw [← h]
        exact getD_mem_of_lt t j "" (by simpa using hj)
      | succ i =>
        simp only [List.getD_cons_succ] at h
        have := ih ht j i (by simpa using hj) (by simpa using hi) h
        omega

theorem find?_first {α : Type} (p : α → Bool) (d : α) :
    ∀ (l : List α) (i : ℕ), i < l.length → p (l.getD i d) = true →
      (∀ j, j < i → p (l.getD j d) = false) →
      l.find? p = some (l.getD i d) := by
  intro l
  induction l with
  | nil => intro i hi; simp at hi
  | cons a t ih =>
    intro i hi hp hb
    cases i with
    | zero => exact List.find?_cons_of_pos t hp
    | succ i =>
      have ha : p a = false := hb 0 (Nat.succ_pos i)
      rw [List.find?_cons_of_neg t (by simp [ha])]
      exact ih i (by simpa using hi) hp (fun j hj => hb (j + 1) (by omega))

theorem getD_names (l : List Col) (j : ℕ) (hj : j < l.length) :
    (l.map Col.name).getD j "" = (l.getD j ⟨"", []⟩).name := by
  induction l generalizing j with
  | nil => simp at hj
  | cons a t ih =>
    cases j with
    | zero => rfl
    | succ j => simpa using ih j (by simpa using hj)

theorem names_getD (df : Df) (j : ℕ) (hj : j < df.cols.length) :
    (dfNames df).getD j "" = (colAt df j).name := by
  unfold dfNames colAt
  exact getD_names df.cols j hj

/-- Claim C4, amended: when some result column's name contains "date"
(case-insensitively), only the first such column is rewritten, each value
through `_norm_date`: a string value is parsed as a calendar date with
day-before-month disambiguation and reformatted `DD-MM-YYYY` (so
`"31/01/2024"` becomes `"31-01-2024"`); unparseable values pass through as
their original string form; `None` and blank-after-strip values become
null — but a float-NaN missing value does NOT become null: it is
stringified and passes through as the string `"nan"`.  (The claim as
stated — all null values become null — fails on NaN; see the
counterexample.) -/
theorem c4_date_normalization :
    (∀ (df : Df) (i : ℕ), i < df.cols.length → (dfNames df).Nodup →
        isDateName (colAt df i).name = true →
        (∀ j, j < i → isDateName (colAt df j).name = false) →
        ∀ j, j < df.cols.length →
          colAt (applyDateNorm df) j
            = if j = i then
                ⟨(colAt df i).name, (colAt df i).vals.map norm_date⟩
              else colAt df j)
    ∧ (∀ df : Df, (dfNames df).find? isDateName = none → applyDateNorm df = df)
    ∧ norm_date (.str "31/01/2024") = .str "31-01-2024"
    ∧ norm_date .null = .null
    ∧ (∀ s : String, pyStrip s = "" → norm_date (.str s) = .null)
    ∧ (∀ s : String, pyStrip s ≠ "" → parseDateDayfirst s = none →
        norm_date (.str s) = .str s)
    ∧ norm_date .nan = .str "nan" := by
  refine ⟨?_, ?_, by decide, rfl, ?_, ?_, by decide⟩
  · intro df i hi hnd hdate hbefore j hj
    have hlen : (dfNames df).length = df.cols.length := by simp [dfNames]
    have hi' : i < (dfNames df).length := by omega
    have hj' : j < (dfNames df).length := by omega
    have hfind : (dfNames df).find? isDateName = some ((colAt df i).name) := by
      rw [← names_getD df i hi]
      exact find?_first isDateName "" (dfNames df) i hi'
        (by rw [names_getD df i hi]; exact hdate)
        (fun k hk => by
          rw [names_getD df k (by omega)]
          exact hbefore k hk)
    unfold applyDateNorm
    rw [hfind]
    unfold colAt
    rw [getD_map_cols _ _ _ hj]
    by_cases hji : j = i
    · subst hji
      rw [if_pos (by simp [colAt]), if_pos rfl]
    · have hne : (colAt df j).name ≠ (colAt df i).name := by
        intro hcontra
        apply hji
        apply getD_inj_of_nodup (dfNames df) hnd j i hj' hi'
        rw [names_getD df j hj, names_getD df i hi]
        exact hcontra
      rw [if_neg (by simpa [colAt] using hne), if_neg hji]
  · intro df h
    unfold applyDateNorm
    rw [h]
  · intro s h
    simp only [norm_date, pyStr, h]
    rfl
  · intro s h1 h2
    simp only [norm_date, pyStr, h2]
    rw [if_neg (by simpa using h1)]

/-- Counterexample to C4 as stated: in `docNanDate` the second retained
table lacks the date-mapped column, so concatenation fills its row of the
"Date" column with the NaN missing marker; the claim says null values
become null, but the produced date column holds the string `"nan"` there —
`str(nan)` is `"nan"`, dateutil fails to parse it, and the original string
form is returned. -/
theorem c4_counterexample :
    colAt (parseDoc EXPECTED_COLUMNS docNanDate) 0
        = ⟨"Date", [.str "01-01-2024", .str "nan"]⟩
      ∧ cellAt (selectCols EXPECTED_COLUMNS (ensureCols EXPECTED_COLUMNS
          (renameCols EXPECTED_COLUMNS (dropBlankCols
            (concatDfs (retainedDfs docNanDate)))))) 0 1 = .nan
      ∧ norm_date .nan ≠ .null := by
  decide

/-- Witness for the amended C4: of two date-named columns only the first is
rewritten; whitespace strings become null; non-date text passes through. -/
theorem c4_witness :
    colAt (applyDateNorm dfTwoDates) 0
        = ⟨"Date", [.str "31-01-2024", .null, .null, .str "hello"]⟩
      ∧ colAt (applyDateNorm dfTwoDates) 1
        = ⟨"Value Date", [.str "02/03/2024", .str "x", .null, .str "y"]⟩
      ∧ norm_date (.str " ") = .null
      ∧ norm_date (.str "x/y/z") = .str "x/y/z" := by
  refine ⟨?_, ?_, ?_, ?_⟩
  · exact (c4_date_normalization.1 dfTwoDates 0 (by decide) (by decide) (by decide)
      (fun j hj => absurd hj (by omega)) 0 (by decide)).trans (by decide)
  · exact (c4_date_normalization.1 dfTwoDates 0 (by decide) (by decide) (by decide)
      (fun j hj => absurd hj (by omega)) 1 (by decide)).trans (by decide)
  · exact c4_date_normalization.2.2.2.2.1 " " (by decide)
  · exact c4_date_normalization.2.2.2.2.2.1 "x/y/z" (by decide) (by decide)

/-! ### Claims C1 and C8: shared pipeline lemmas -/

theorem contains_names (l : List String) (s : String) :
    l.contains s = true ↔ s ∈ l := by
  simp

theorem filter_names_comm (l : List Col) (c : String) :
    (l.filter (fun col => col.name == c)).map Col.name
      = (l.map Col.name).filter (fun x => x == c) := by
  induction l with
  | nil => rfl
  | cons a t ih =>
    by_cases h : (a.name == c) = true
    · simp only [List.filter_cons, List.map_cons, h, if_true, List.map_cons]
      rw [ih]
    · simp only [List.filter_cons, List.map_cons, h, Bool.false_eq_true, if_false]
      rw [ih]

theorem filter_nil_of_not_mem_names (l : List Col) (s : String)
    (h : s ∉ l.map Col.name) :
    l.filter (fun col => col.name == s) = [] := by
  induction l with
  | nil => rfl
  | cons a t ih =>
    have h1 : a.name ≠ s := fun he => h (by simp [he])
    have h2 : s ∉ t.map Col.name := fun hm => h (by simp [hm])
    simp only [List.filter_cons, beq_iff_eq, h1, if_false]
    exact ih h2

theorem names_ensureStep (df : Df) (e : String) :
    dfNames (ensureStep df e)
      = if (dfNames df).contains e then dfNames df else dfNames df ++ [e] := by
  unfold ensureStep
  by_cases h : (dfNames df).contains e = true
  · rw [if_pos h, if_pos h]
  · rw [if_neg h, if_neg h]
    simp [dfNames]

theorem nrows_ensureStep (df : Df) (e : String) :
    (ensureStep df e).nrows = df.nrows := by
  unfold ensureStep
  by_cases h : (dfNames df).contains e = true
  · rw [if_pos h]
  · rw [if_neg h]

theorem mem_names_ensureStep (df : Df) (e s : String)
    (h : s ∈ dfNames df) : s ∈ dfNames (ensureStep df e) := by
  rw [names_ensureStep]
  by_cases hc : (dfNames df).contains e = true
  · rw [if_pos hc]; exact h
  · rw [if_neg hc]; exact List.mem_append_left _ h

theorem nrows_ensureCols (exp : List String) :
    ∀ df : Df, (ensureCols exp df).nrows = df.nrows := by
  induction exp with
  | nil => intro df; rfl
  | cons e rest ih =>
    intro df
    show (ensureCols rest (ensureStep df e)).nrows = df.nrows
    rw [ih (ensureStep df e), nrows_ensureStep]

theorem ensure_filter_of_mem_names (exp : List String) :
    ∀ (df : Df) (s : String), s ∈ dfNames df →
      (ensureCols exp df).cols.filter (fun col => col.name == s)
        = df.cols.filter (fun col => col.name == s) := by
  induction exp with
  | nil => intro df s _; rfl
  | cons e rest ih =>
    intro df s hs
    show (ensureCols rest (ensureStep df e)).cols.filter _ = _
    rw [ih (ensureStep df e) s (mem_names_ensureStep df e s hs)]
    unfold ensureStep
    by_cases hc : (dfNames df).contains e = true
    · rw [if_pos hc]
    · rw [if_neg hc]
      simp only [List.filter_append]
      have he : e ≠ s := by
        intro hes
        subst hes
        exact hc ((contains_names _ _).mpr hs)
      simp [he]

theorem ensure_filter_of_missing (exp : List String) :
    ∀ (df : Df) (s : String), s ∈ exp → s ∉ dfNames df →
      (ensureCols exp df).cols.filter (fun col => col.name == s)
        = [⟨s, List.replicate df.nrows Value.null⟩] := by
  induction exp with
  | nil => intro df s hs; simp at hs
  | cons e rest ih =>
    intro df s hs habs
    show (ensureCols rest (ensureStep df e)).cols.filter _ = _
    by_cases hes : e = s
    · subst hes
      have hstep : ensureStep df e
          = ⟨df.cols ++ [⟨e, List.replicate df.nrows Value.null⟩], df.nrows⟩ := by
        unfold ensureStep
        rw [if_neg (fun hcon => habs ((contains_names _ _).mp hcon))]
      have hmem : e ∈ dfNames (ensureStep df e) := by
        rw [hstep]
        simp [dfNames]
      rw [ensure_filter_of_mem_names rest (ensureStep df e) e hmem, hstep]
      simp only [List.filter_append]
      rw [filter_nil_of_not_mem_names df.cols e habs]
      simp
    · have hs' : s ∈ rest := by
        rcases List.mem_cons.mp hs with h | h
        · exact absurd h.symm hes
        · exact h
      have habs' : s ∉ dfNames (ensureStep df e) := by
        rw [names_ensureStep]
        by_cases hc : (dfNames df).contains e = true
        · rw [if_pos hc]; exact habs
        · rw [if_neg hc]
          intro hmem
          rcases List.mem_append.mp hmem with h | h
          · exact habs h
          · have hse : s = e := by simpa using h
            exact hes hse.symm
      rw [ih (ensureStep df e) s hs' habs', nrows_ensureStep]

theorem select_filter (df : Df) (s : String) :
    ∀ exp : List String, exp.Nodup → s ∈ exp →
      (selectCols exp df).cols.filter (fun col => col.name == s)
        = df.cols.filter (fun col => col.name == s) := by
  have hpiece : ∀ c : String, c ≠ s →
      (df.cols.filter (fun col => col.name == c)).filter
        (fun col => col.name == s) = [] := by
    intro c hc
    rw [List.filter_filter]
    apply List.filter_eq_nil_iff.mpr
    intro col _
    simp only [Bool.and_eq_true, beq_iff_eq]
    rintro ⟨h1, h2⟩
    exact hc (h2.symm.trans h1)
  have hrest : ∀ rest : List String, s ∉ rest →
      ((rest.map (fun c => df.cols.filter (fun col => col.name == c))).flatten).filter
        (fun col => col.name == s) = [] := by
    intro rest
    induction rest with
    | nil => intro _; rfl
    | cons c t ih =>
      intro hs
      simp only [List.map_cons, List.flatten_cons, List.filter_append]
      rw [hpiece c (fun hcs => hs (by simp [hcs])),
        ih (fun hm => hs (by simp [hm]))]
      rfl
  intro exp
  induction exp with
  | nil => intro _ hs; simp at hs
  | cons c rest ih =>
    intro hnd hs
    rcases List.nodup_cons.mp hnd with ⟨hc, hrestnd⟩
    show ((df.cols.filter (fun col => col.name == c)
        :: rest.map (fun c => df.cols.filter (fun col => col.name == c))).flatten).filter
          _ = _
    simp only [List.flatten_cons, List.filter_append]
    by_cases hcs : c = s
    · subst hcs
      rw [List.filter_filter]
      have h1 : (df.cols.filter fun col => (col.name == c) && (col.name == c))
          = df.cols.filter (fun col => col.name == c) := by
        apply List.filter_congr
        intro col _
        rw [Bool.and_self]
      rw [h1, hrest rest hc]
      simp
    · rw [hpiece c hcs]
      have hs' : s ∈ rest := by
        rcases List.mem_cons.mp hs with h | h
        · exact absurd h.symm hcs
        · exact h
      rw [List.nil_append]
      exact ih hrestnd hs'

/-! ### Claim C8 -/

/-- Counterexample to C8 as stated: both raw labels of `docDupVals` map to
"Description"; after renaming and final column selection the output holds
TWO "Description" columns — the earlier raw column's values are not
overwritten, so "last one wins, exactly one column per schema name" is
false. -/
theorem c8_counterexample :
    guess_column_mapping ["Narration", "Details"] EXPECTED_COLUMNS
        = [("Narration", "Description"), ("Details", "Description")]
      ∧ (parseDoc EXPECTED_COLUMNS docDupVals).cols.filter
          (fun col => col.name == "Description")
        = [⟨"Description", [.str "x"]⟩, ⟨"Description", [.str "y"]⟩]
      ∧ (parseDoc EXPECTED_COLUMNS docDupVals).cols.filter
          (fun col => col.name == "Description")
        ≠ [⟨"Description", [.str "y"]⟩] := by
  decide

/-- Claim C8, amended: when two or more raw columns are renamed to the same
schema column, NONE wins — the final column selection returns every column
bearing that schema name, in their original order and with their values
intact (pandas label selection returns all duplicates), with no error and
no deduplication; a schema name borne by no column yields a single all-null
column. -/
theorem c8_duplicate_mapping (exp : List String) (df : Df) (s : String)
    (hnd : exp.Nodup) (hs : s ∈ exp) :
    (selectCols exp (ensureCols exp df)).cols.filter (fun col => col.name == s)
      = (if s ∈ dfNames df then df.cols.filter (fun col => col.name == s)
         else [⟨s, List.replicate df.nrows Value.null⟩]) := by
  rw [select_filter (ensureCols exp df) s exp hnd hs]
  by_cases hp : s ∈ dfNames df
  · rw [if_pos hp, ensure_filter_of_mem_names exp df s hp]
  · rw [if_neg hp, ensure_filter_of_missing exp df s hs hp]

/-- Witness for the amended C8: a frame carrying two "Description" columns
keeps both through fill and selection. -/
theorem c8_witness :
    (selectCols EXPECTED_COLUMNS (ensureCols EXPECTED_COLUMNS
        ⟨[⟨"Description", [.str "x"]⟩, ⟨"Description", [.str "y"]⟩], 1⟩)).cols.filter
        (fun col => col.name == "Description")
      = [⟨"Description", [.str "x"]⟩, ⟨"Description", [.str "y"]⟩] :=
  (c8_duplicate_mapping EXPECTED_COLUMNS
      ⟨[⟨"Description", [.str "x"]⟩, ⟨"Description", [.str "y"]⟩], 1⟩
      "Description" (by decide) (by decide)).trans (by decide)

/-! ### Claim C1 -/

theorem names_applyNumNorm (df : Df) : dfNames (applyNumNorm df) = dfNames df := by
  unfold dfNames applyNumNorm
  rw [List.map_map]
  apply List.map_congr_left
  intro col _
  by_cases h : isNumericName col.name = true
  · simp [Function.comp, h]
  · simp [Function.comp, h]

theorem names_applyDateNorm (df : Df) : dfNames (applyDateNorm df) = dfNames df := by
  unfold applyDateNorm
  cases h : (dfNames df).find? isDateName with
  | none => rfl
  | some dc =>
    unfold dfNames
    rw [List.map_map]
    apply List.map_congr_left
    intro col _
    by_cases hc : (col.name == dc) = true
    · simp [Function.comp, hc]
    · simp [Function.comp, hc]

theorem map_name_flatten_filters (d : List Col) :
    ∀ exp : List String,
      ((exp.map (fun c => d.filter (fun col => col.name == c))).flatten).map Col.name
        = (exp.map (fun c => (d.map Col.name).filter (fun x => x == c))).flatten := by
  intro exp
  induction exp with
  | nil => rfl
  | cons c rest ih =>
    simp only [List.map_cons, List.flatten_cons, List.map_append]
    rw [filter_names_comm, ih]

theorem names_selectCols (exp : List String) (d : Df) :
    dfNames (selectCols exp d)
      = (exp.map (fun c => (dfNames d).filter (fun x => x == c))).flatten :=
  map_name_flatten_filters d.cols exp

theorem filter_eq_single_of_count_le_one (l : List String) (c : String) :
    c ∈ l → l.count c ≤ 1 → l.filter (fun x => x == c) = [c] := by
  induction l with
  | nil => intro h; simp at h
  | cons a t ih =>
    intro hmem hcount
    by_cases hac : a = c
    · subst hac
      have h0 : t.count a = 0 := by
        rw [List.count_cons_self] at hcount
        omega
      have hnot : a ∉ t := List.count_eq_zero.mp h0
      simp only [List.filter_cons, beq_self_eq_true, if_true]
      have hfil : t.filter (fun x => x == a) = [] := by
        apply List.filter_eq_nil_iff.mpr
        intro x hx hbeq
        exact hnot ((beq_iff_eq.mp hbeq) ▸ hx)
      rw [hfil]
    · have hmem' : c ∈ t := by
        rcases List.mem_cons.mp hmem with h | h
        · exact absurd h.symm hac
        · exact h
      have hcount' : t.count c ≤ 1 := by
        rw [List.count_cons] at hcount
        omega
      simp only [List.filter_cons, beq_iff_eq, hac, if_false]
      exact ih hmem' hcount'

theorem ensured_names_filter (exp : List String) (df : Df) (c : String)
    (hc : c ∈ exp) (hcount : (dfNames df).count c ≤ 1) :
    (dfNames (ensureCols exp df)).filter (fun x => x == c) = [c] := by
  have h1 : (dfNames (ensureCols exp df)).filter (fun x => x == c)
      = ((ensureCols exp df).cols.filter (fun col => col.name == c)).map Col.name :=
    (filter_names_comm _ _).symm
  rw [h1]
  by_cases hp : c ∈ dfNames df
  · rw [ensure_filter_of_mem_names exp df c hp, filter_names_comm]
    exact filter_eq_single_of_count_le_one (dfNames df) c hp hcount
  · rw [ensure_filter_of_missing exp df c hc hp]
    rfl

theorem flatten_map_singleton (l : List String) :
    (l.map (fun c => [c])).flatten = l := by
  induction l with
  | nil => rfl
  | cons a t ih => simp only [List.map_cons, List.flatten_cons]; rw [ih]; rfl

theorem select_ensure_names (exp : List String) (df : Df)
    (hcount : ∀ s ∈ exp, (dfNames df).count s ≤ 1) :
    dfNames (selectCols exp (ensureCols exp df)) = exp := by
  rw [names_selectCols]
  have hmap : exp.map (fun c => (dfNames (ensureCols exp df)).filter (fun x => x == c))
      = exp.map (fun c => [c]) := by
    apply List.map_congr_left
    intro c hc
    exact ensured_names_filter exp df c hc (hcount c hc)
  rw [hmap, flatten_map_singleton]

/-- Counterexample to C1 as stated: in `docDupNames` two raw labels map to
"Description", and after renaming the selection `df[EXPECTED_COLUMNS]`
returns both, so the returned table has six columns, not the five of the
schema. -/
theorem c1_counterexample :
    dfNames (parseDoc EXPECTED_COLUMNS docDupNames)
        = ["Date", "Description", "Description", "Debit Amt", "Credit Amt", "Balance"]
      ∧ dfNames (parseDoc EXPECTED_COLUMNS docDupNames) ≠ EXPECTED_COLUMNS := by
  decide

/-- Claim C1, amended: the parsed frame's columns equal the baked-in schema
exactly (same names, order and count) in the empty-document case and
whenever no two surviving raw columns are renamed to the same schema name
(that is, each schema name is carried by at most one renamed column);
when several raw columns rename to one schema name, that name appears once
per such column instead.  (The claim as stated — for every document —
fails; see the counterexample.) -/
theorem c1_parse_columns_schema (exp : List String) (doc : Document)
    (hcount : ∀ s ∈ exp,
      (dfNames (renameCols exp (dropBlankCols
        (concatDfs (retainedDfs doc))))).count s ≤ 1) :
    dfNames (parseDoc exp doc) = exp := by
  unfold parseDoc
  by_cases h : (retainedDfs doc).isEmpty = true
  · rw [if_pos h]
    exact dfNames_emptyDf exp
  · rw [if_neg h]
    rw [names_applyNumNorm, names_applyDateNorm]
    exact select_ensure_names exp _ hcount

/-- Witness for the amended C1 at a document whose two raw labels map to
two distinct schema columns. -/
theorem c1_witness :
    (∀ s ∈ EXPECTED_COLUMNS,
        (dfNames (renameCols EXPECTED_COLUMNS (dropBlankCols
          (concatDfs (retainedDfs docInjective))))).count s ≤ 1)
      ∧ dfNames (parseDoc EXPECTED_COLUMNS docInjective) = EXPECTED_COLUMNS :=
  ⟨by decide, c1_parse_columns_schema EXPECTED_COLUMNS docInjective (by decide)⟩

end KarbonAgent
